import Mathlib

/-!
Verification of the dependency-extraction core of `src/Conf.py`.

Python strings are embedded as `List Char`; the Python string methods the
code uses (`strip`, `startswith`, slicing by a literal's length, `split(sep)`,
`split()`, `splitlines`, `lower`) are given structurally recursive models
(`pyStrip`, `pyStartsWith`, `List.drop`, `pySplitIf`, `pyWords`,
`pySplitlines`, `pyLower`).  A raised Python exception is modelled by
`Option`/`Except` failure values.
-/

namespace Conf

/-- Python ASCII whitespace, as recognised by `str.strip` and `str.split()`. -/
def pyIsSpace (c : Char) : Bool :=
  c == ' ' || c == '\t' || c == '\n' || c == '\r' || c == '\x0b' || c == '\x0c'

/-- Model of Python `s.strip()`: remove leading and trailing whitespace. -/
def pyStrip (s : List Char) : List Char :=
  ((s.dropWhile pyIsSpace).reverse.dropWhile pyIsSpace).reverse

/-- Model of Python `s.startswith(p)`. -/
def pyStartsWith : List Char → List Char → Bool
  | _, [] => true
  | [], _ :: _ => false
  | c :: s, d :: p => c == d && pyStartsWith s p

/-- Model of Python `s.split(sep)` for a one-character separator, generalised
to a character predicate: splits at every matching character and keeps empty
pieces, so `"".split(sep) = [""]` and `"a,,b".split(",") = ["a","","b"]`. -/
def pySplitIf (p : Char → Bool) : List Char → List (List Char)
  | [] => [[]]
  | c :: rest =>
    match pySplitIf p rest with
    | [] => if p c then [[], []] else [[c]]
    | h :: t => if p c then [] :: h :: t else (c :: h) :: t

/-- Model of Python `s.split()` (no argument): split on runs of whitespace,
dropping empty pieces, so `"".split() = []`. -/
def pyWords (s : List Char) : List (List Char) :=
  (pySplitIf pyIsSpace s).filter (fun w => w ≠ [])

/-- Model of Python `s.splitlines()` for `\n`-separated text: like splitting
on `\n` but without a trailing empty line when the text ends in `\n`
(the index texts in question use only `\n` line endings). -/
def pySplitlines : List Char → List (List Char)
  | [] => []
  | c :: rest =>
    if c = '\n' then [] :: pySplitlines rest
    else
      match pySplitlines rest with
      | [] => [[c]]
      | h :: t => (c :: h) :: t

/-- Model of Python `str.lower()` on ASCII letters. -/
def pyLowerChar (c : Char) : Char :=
  if 'A' ≤ c ∧ c ≤ 'Z' then Char.ofNat (c.toNat + 32) else c

/-- Model of Python `s.lower()`. -/
def pyLower (s : List Char) : List Char := s.map pyLowerChar

/-- The scanning loop of `extract_dependencies` (src/Conf.py lines 94-106):
walk the lines, keeping the current package name (`None` initially); a
stripped line starting with `"Package: "` resets the current package (the
accompanying `depends_line = None` reset is immaterial here because the loop
`break`s the moment `depends_line` is set); a stripped line starting with
`"Depends: "` while the current package equals the target captures the
stripped remainder and stops (`break`).  Returns the captured value, `none`
when the loop runs off the end. -/
def findDependsLine : List (List Char) → Option (List Char) → List Char → Option (List Char)
  | [], _, _ => none
  | l :: rest, current_package, package_name =>
    if pyStartsWith (pyStrip l) "Package: ".toList = true then
      findDependsLine rest (some (pyStrip ((pyStrip l).drop 9))) package_name
    else if pyStartsWith (pyStrip l) "Depends: ".toList = true ∧ current_package = some package_name then
      some (pyStrip ((pyStrip l).drop 9))
    else
      findDependsLine rest current_package package_name

/-- The parsing loop of `extract_dependencies` (src/Conf.py lines 112-118):
for each comma-separated piece, strip it, take `dep.split()[0]`, and append
it when non-empty.  `dep.split()[0]` raises `IndexError` when the stripped
piece has no words (it is empty or all whitespace); that exception is
modelled by `none`. -/
def parseDepsList : List (List Char) → Option (List (List Char))
  | [] => some []
  | dep :: rest =>
    match pyWords (pyStrip dep) with
    | [] => none
    | w :: _ =>
      match parseDepsList rest with
      | none => none
      | some ds => some (if w = [] then ds else w :: ds)

/-- Model of `extract_dependencies(packages_content, package_name)`
(src/Conf.py lines 90-120).  `some ds` is a normal return of list `ds`;
`none` models an uncaught Python exception (the `IndexError` from
`dep.split()[0]`). -/
def extract_dependencies (packages_content package_name : String) : Option (List String) :=
  match findDependsLine (pySplitlines packages_content.toList) none package_name.toList with
  | none => some []
  | some depends_line =>
    if depends_line = [] then some []
    else
      match parseDepsList (pySplitIf (fun c => c = ',') depends_line) with
      | none => none
      | some ds => some (ds.map (fun w => String.mk w))

/-- Model of `validate_mode(value, name)` (src/Conf.py lines 57-65) on string
inputs (the `None` and non-`str` branches are outside the claims, which
quantify over strings).  `Except.error` models a raised `ValueError`. -/
def validate_mode (value : String) (name : String) : Except String String :=
  if String.mk (pyLower (pyStrip value.toList)) = "test" ∨
      String.mk (pyLower (pyStrip value.toList)) = "repo" then
    Except.ok (String.mk (pyLower (pyStrip value.toList)))
  else Except.error ("Параметр " ++ name ++ " должен иметь значение test или repo.")

/-- Model of `validate_int(value, name, minimum, maximum)` (src/Conf.py lines
68-82) on integer inputs (the `None` and string-conversion branches are
outside the claims, which quantify over integers).  `Except.error` models a
raised `ValueError`; `maximum = none` models the default `maximum=None`. -/
def validate_int (value : Int) (name : String) (minimum : Int) (maximum : Option Int) : Except String Int :=
  if value < minimum then
    Except.error ("Параметр " ++ name ++ " должен быть >= " ++ toString minimum ++ ".")
  else
    match maximum with
    | some m =>
      if m < value then
        Except.error ("Параметр " ++ name ++ " должен быть <= " ++ toString m ++ ".")
      else Except.ok value
    | none => Except.ok value

/-- Specification helper: the current-package state of the scanning loop
after processing a list of lines (only `"Package: "` lines change it). -/
def currentAfter : List (List Char) → Option (List Char) → Option (List Char)
  | [], current => current
  | l :: rest, current =>
    if pyStartsWith (pyStrip l) "Package: ".toList = true then
      currentAfter rest (some (pyStrip ((pyStrip l).drop 9)))
    else
      currentAfter rest current

/-- Specification helper: the scanning loop processes these lines without
ever capturing a depends value, i.e. no line starts with `"Depends: "` at a
moment when the current package equals the target. -/
def noCapture : List (List Char) → Option (List Char) → List Char → Bool
  | [], _, _ => true
  | l :: rest, current, target =>
    if pyStartsWith (pyStrip l) "Package: ".toList = true then
      noCapture rest (some (pyStrip ((pyStrip l).drop 9))) target
    else if pyStartsWith (pyStrip l) "Depends: ".toList = true ∧ current = some target then
      false
    else
      noCapture rest current target

/-! ## Helper lemmas -/

/-- A stripped line that starts with `"Depends: "` does not start with
`"Package: "` (the first characters differ). -/
theorem pyStartsWith_depends_not_package (s : List Char)
    (h : pyStartsWith s "Depends: ".toList = true) :
    ¬ pyStartsWith s "Package: ".toList = true := by
  cases s with
  | nil => exact absurd h (by decide)
  | cons c s =>
    rw [show "Depends: ".toList = 'D' :: "epends: ".toList from rfl] at h
    rw [show "Package: ".toList = 'P' :: "ackage: ".toList from rfl]
    simp only [pyStartsWith, Bool.and_eq_true, beq_iff_eq] at h ⊢
    rintro ⟨rfl, -⟩
    exact absurd h.1 (by decide)

/-- If the scanning loop never hits a capture point, it returns `none`. -/
theorem noCapture_findDependsLine_none (lines : List (List Char)) :
    ∀ (cur : Option (List Char)) (target : List Char),
      noCapture lines cur target = true → findDependsLine lines cur target = none := by
  induction lines with
  | nil => intro cur target _; rfl
  | cons l rest ih =>
    intro cur target h
    simp only [noCapture] at h
    simp only [findDependsLine]
    by_cases h1 : pyStartsWith (pyStrip l) "Package: ".toList = true
    · rw [if_pos h1] at h ⊢
      exact ih _ _ h
    · rw [if_neg h1] at h ⊢
      by_cases h2 : pyStartsWith (pyStrip l) "Depends: ".toList = true ∧ cur = some target
      · rw [if_pos h2] at h
        exact absurd h (by decide)
      · rw [if_neg h2] at h ⊢
        exact ih _ _ h

/-- Every word produced by `pyWords` is non-empty. -/
theorem pyWords_ne_nil (s w : List Char) (ws : List (List Char))
    (h : pyWords s = w :: ws) : w ≠ [] := by
  have hw : w ∈ pyWords s := by rw [h]; exact List.mem_cons_self _ _
  unfold pyWords at hw
  have := List.of_mem_filter hw
  simpa using this

/-- On success, the parsing loop returns exactly the first words of the
pieces it was given, in order. -/
theorem parseDepsList_eq_filterMap (entries : List (List Char)) :
    ∀ (ds : List (List Char)), parseDepsList entries = some ds →
      ds = entries.filterMap (fun dep => (pyWords (pyStrip dep)).head?) := by
  induction entries with
  | nil =>
    intro ds h
    simp only [parseDepsList, Option.some.injEq] at h
    simp [← h]
  | cons dep rest ih =>
    intro ds h
    simp only [parseDepsList] at h
    cases hw : pyWords (pyStrip dep) with
    | nil => rw [hw] at h; exact absurd h (by simp)
    | cons w ws =>
      rw [hw] at h
      cases hr : parseDepsList rest with
      | none => rw [hr] at h; exact absurd h (by simp)
      | some ds' =>
        rw [hr] at h
        simp only [Option.some.injEq] at h
        have hne : w ≠ [] := pyWords_ne_nil _ _ _ hw
        rw [if_neg hne] at h
        subst h
        simp only [List.filterMap_cons, hw, List.head?_cons]
        rw [← ih ds' hr]

/-! ## Claim theorems -/

/-- C1 counterexample: for the index text with two `Package: alpha` stanzas —
the first without a `Depends` field, the second followed by `Depends: x` —
`extract_dependencies(text, "alpha")` does NOT return an empty result, contrary
to the claim. -/
theorem extract_dependencies_duplicate_stanza_counterexample :
    ¬ extract_dependencies "Package: alpha\nPackage: alpha\nDepends: x" "alpha" = some [] := by
  decide

/-- C1 (amended): for that text, `extract_dependencies(text, "alpha")` returns
`["x"]`: the second `Package: alpha` line re-establishes `alpha` as the current
package, so the following `Depends: x` line is captured — a repeated `Package:`
line with the same name does not shield its fields from matching. -/
theorem extract_dependencies_duplicate_stanza_returns_x :
    extract_dependencies "Package: alpha\nPackage: alpha\nDepends: x" "alpha" = some ["x"] := by
  decide

/-- C2: at the depends value `"a,, b"` (index `"Package: p\nDepends: a,, b"`,
target `"p"`) the parsing loop raises `IndexError` — `dep.split()[0]` on the
empty comma token — modelled here as the `none` result; it does not return
`["a", "b"]` as claimed. -/
theorem extract_dependencies_empty_token_raises_error :
    extract_dependencies "Package: p\nDepends: a,, b" "p" = none := by
  decide

/-- C3: once a line starting with `Depends: ` is reached while the current
package equals the target (the preceding lines contain no earlier capture
point and leave the current package equal to the target), the scan returns
the trimmed remainder of that line, whatever lines follow — later lines never
influence the result. -/
theorem findDependsLine_first_match_short_circuits
    (pre : List (List Char)) (l : List Char) (post : List (List Char))
    (cur : Option (List Char)) (target : List Char)
    (hpre : noCapture pre cur target = true)
    (hcur : currentAfter pre cur = some target)
    (hl : pyStartsWith (pyStrip l) "Depends: ".toList = true) :
    findDependsLine (pre ++ l :: post) cur target = some (pyStrip ((pyStrip l).drop 9)) := by
  induction pre generalizing cur with
  | nil =>
    simp only [currentAfter] at hcur
    simp only [List.nil_append, findDependsLine]
    rw [if_neg (pyStartsWith_depends_not_package _ hl), if_pos ⟨hl, hcur⟩]
  | cons l0 rest ih =>
    simp only [noCapture] at hpre
    simp only [currentAfter] at hcur
    simp only [List.cons_append, findDependsLine]
    by_cases h1 : pyStartsWith (pyStrip l0) "Package: ".toList = true
    · rw [if_pos h1] at hpre hcur ⊢
      exact ih _ hpre hcur
    · rw [if_neg h1] at hpre hcur ⊢
      by_cases h2 : pyStartsWith (pyStrip l0) "Depends: ".toList = true ∧ cur = some target
      · rw [if_pos h2] at hpre
        exact absurd hpre (by decide)
      · rw [if_neg h2] at hpre ⊢
        exact ih _ hpre hcur

/-- C3 witness: concrete instance — after the stanza `Package: a`, the line
`Depends: x` is captured (trimmed) and a later `Depends: z` line is ignored. -/
theorem findDependsLine_first_match_short_circuits_witness :
    noCapture ["Package: a".toList] none "a".toList = true ∧
    currentAfter ["Package: a".toList] none = some "a".toList ∧
    pyStartsWith (pyStrip "Depends: x".toList) "Depends: ".toList = true ∧
    findDependsLine (["Package: a".toList] ++ "Depends: x".toList :: ["Depends: z".toList])
      none "a".toList = some (pyStrip ((pyStrip "Depends: x".toList).drop 9)) :=
  ⟨by decide, by decide, by decide,
    findDependsLine_first_match_short_circuits _ _ _ _ _ (by decide) (by decide) (by decide)⟩

/-- C4: on the four-line index text, extraction yields `["beta", "gamma"]`
for target `alpha`, `["gamma"]` for target `beta`, and `[]` for target
`delta` (the scanner hands the raw depends string of the target's stanza to
the comma-splitting, first-word-keeping parsing loop). -/
theorem extract_dependencies_four_line_example :
    extract_dependencies
        "Package: alpha\nDepends: beta, gamma (>= 2.0)\nPackage: beta\nDepends: gamma"
        "alpha" = some ["beta", "gamma"] ∧
    extract_dependencies
        "Package: alpha\nDepends: beta, gamma (>= 2.0)\nPackage: beta\nDepends: gamma"
        "beta" = some ["gamma"] ∧
    extract_dependencies
        "Package: alpha\nDepends: beta, gamma (>= 2.0)\nPackage: beta\nDepends: gamma"
        "delta" = some [] := by
  decide

/-- C5: when no line of the text establishes a current package equal to the
target that is then followed by a `Depends: ` line (`noCapture`), the function
returns the empty list and raises no error. -/
theorem extract_dependencies_no_match_returns_empty (text target : String)
    (h : noCapture (pySplitlines text.toList) none target.toList = true) :
    extract_dependencies text target = some [] := by
  unfold extract_dependencies
  rw [noCapture_findDependsLine_none _ _ _ h]

/-- C5 witness: target `b` never matches in `"Package: a\nDepends: x"`, and
extraction returns the empty list. -/
theorem extract_dependencies_no_match_returns_empty_witness :
    noCapture (pySplitlines "Package: a\nDepends: x".toList) none "b".toList = true ∧
    extract_dependencies "Package: a\nDepends: x" "b" = some [] :=
  ⟨by decide, extract_dependencies_no_match_returns_empty _ _ (by decide)⟩

/-- C6: whenever the parsing loop succeeds on the comma-split pieces of a
captured depends value, its result is exactly the ordered sequence of first
words of the comma-separated entries — order is preserved and duplicates are
kept, by the shape of `List.filterMap`. -/
theorem parseDepsList_ordered_first_words (dl : List Char) (ds : List (List Char))
    (h : parseDepsList (pySplitIf (fun c => c = ',') dl) = some ds) :
    ds = (pySplitIf (fun c => c = ',') dl).filterMap
      (fun dep => (pyWords (pyStrip dep)).head?) :=
  parseDepsList_eq_filterMap _ _ h

/-- C6 witness: on the depends value `"a, b (>= 1), a"` the parsing loop
succeeds with `["a", "b", "a"]` — order kept, duplicate `a` kept. -/
theorem parseDepsList_ordered_first_words_witness :
    parseDepsList (pySplitIf (fun c => c = ',') "a, b (>= 1), a".toList) =
      some ["a".toList, "b".toList, "a".toList] ∧
    ["a".toList, "b".toList, "a".toList] =
      (pySplitIf (fun c => c = ',') "a, b (>= 1), a".toList).filterMap
        (fun dep => (pyWords (pyStrip dep)).head?) :=
  ⟨by decide, parseDepsList_ordered_first_words _ _ (by decide)⟩

/-- C7: lines preceding the first `Package: ` line — including any
`Depends: ` lines there — never produce the result: scanning `pre ++ post`
where no line of `pre` starts (after stripping) with `Package: ` gives the
same result as scanning `post` alone, and scanning `pre` alone captures
nothing. -/
theorem findDependsLine_ignores_lines_before_first_package
    (pre post : List (List Char)) (target : List Char)
    (h : ∀ l ∈ pre, ¬ pyStartsWith (pyStrip l) "Package: ".toList = true) :
    findDependsLine (pre ++ post) none target = findDependsLine post none target ∧
    findDependsLine pre none target = none := by
  induction pre with
  | nil => exact ⟨rfl, rfl⟩
  | cons l rest ih =>
    have hl : ¬ pyStartsWith (pyStrip l) "Package: ".toList = true :=
      h l (List.mem_cons_self _ _)
    have hrest := ih (fun l' hl' => h l' (List.mem_cons_of_mem _ hl'))
    have h2 : ¬ (pyStartsWith (pyStrip l) "Depends: ".toList = true ∧
        (none : Option (List Char)) = some target) := by
      rintro ⟨-, hc⟩
      exact Option.noConfusion hc
    constructor
    · simp only [List.cons_append, findDependsLine]
      rw [if_neg hl, if_neg h2]
      exact hrest.1
    · simp only [findDependsLine]
      rw [if_neg hl, if_neg h2]
      exact hrest.2

/-- C7 witness: the stray line `Depends: x` before the first `Package: ` line
contributes nothing — scanning it followed by a matching stanza equals
scanning the stanza alone, and scanning it alone captures nothing. -/
theorem findDependsLine_ignores_lines_before_first_package_witness :
    (∀ l ∈ ["Depends: x".toList], ¬ pyStartsWith (pyStrip l) "Package: ".toList = true) ∧
    findDependsLine (["Depends: x".toList] ++ ["Package: a".toList, "Depends: y".toList])
        none "a".toList =
      findDependsLine ["Package: a".toList, "Depends: y".toList] none "a".toList ∧
    findDependsLine ["Depends: x".toList] none "a".toList = none :=
  ⟨by decide, findDependsLine_ignores_lines_before_first_package _ _ _ (by decide)⟩

/-- Unfolding of `validate_int` at the `max_depth` bounds, with the
`match` on `some 100` iota-reduced. -/
theorem validate_int_max_depth_unfold (n : Int) :
    validate_int n "max_depth" 0 (some 100) =
      if n < 0 then
        Except.error ("Параметр " ++ "max_depth" ++ " должен быть >= " ++ toString (0 : Int) ++ ".")
      else if (100 : Int) < n then
        Except.error ("Параметр " ++ "max_depth" ++ " должен быть <= " ++ toString (100 : Int) ++ ".")
      else Except.ok n := rfl

/-- C8: with `minimum=0` and `maximum=100`, `validate_int` returns its input
exactly when `0 ≤ n ≤ 100`, and raises `ValueError` (modelled as
`Except.error`) exactly when `n < 0` or `n > 100` — both bounds inclusive. -/
theorem validate_int_max_depth_bounds (n : Int) :
    (validate_int n "max_depth" 0 (some 100) = Except.ok n ↔ 0 ≤ n ∧ n ≤ 100) ∧
    ((∃ e, validate_int n "max_depth" 0 (some 100) = Except.error e) ↔ n < 0 ∨ 100 < n) := by
  rw [validate_int_max_depth_unfold]
  by_cases h1 : n < 0
  · rw [if_pos h1]
    refine ⟨⟨fun h => absurd h (by simp), fun h => absurd h1 (by omega)⟩,
      fun _ => Or.inl h1, fun _ => ⟨_, rfl⟩⟩
  · rw [if_neg h1]
    by_cases h2 : (100 : Int) < n
    · rw [if_pos h2]
      refine ⟨⟨fun h => absurd h (by simp), fun h => absurd h2 (by omega)⟩,
        fun _ => Or.inr h2, fun _ => ⟨_, rfl⟩⟩
    · rw [if_neg h2]
      refine ⟨⟨fun _ => by omega, fun _ => rfl⟩,
        ⟨fun ⟨e, he⟩ => absurd he (by simp), fun h => absurd h (by omega)⟩⟩

/-- C9: a line whose stripped content is exactly `Depends:` matches neither
field prefix, so the scan skips it — even when the current package equals the
target — and continues with the remaining lines, from which a later matching
stanza's `Depends: ` line can still be returned. -/
theorem findDependsLine_skips_bare_depends (l : List Char) (rest : List (List Char))
    (cur : Option (List Char)) (target : List Char)
    (h : pyStrip l = "Depends:".toList) :
    findDependsLine (l :: rest) cur target = findDependsLine rest cur target := by
  simp only [findDependsLine, h]
  rw [if_neg (by decide), if_neg ?_]
  rintro ⟨hc, -⟩
  exact absurd hc (by decide)

/-- C9 witness: the line `"Depends:   "` (whitespace only after the colon) is
skipped even though the current package equals the target, and the later
line `Depends: x` is then the one captured. -/
theorem findDependsLine_skips_bare_depends_witness :
    pyStrip "Depends:   ".toList = "Depends:".toList ∧
    findDependsLine ["Depends:   ".toList, "Depends: x".toList]
        (some "a".toList) "a".toList =
      findDependsLine ["Depends: x".toList] (some "a".toList) "a".toList ∧
    findDependsLine ["Depends: x".toList] (some "a".toList) "a".toList =
      some "x".toList :=
  ⟨by decide, findDependsLine_skips_bare_depends _ _ _ _ (by decide), by decide⟩

/-- C10: `validate_mode` returns the trimmed, lowercased form of its input
exactly when that normalized form is `test` or `repo` (so `" Test "` yields
`"test"` and `"REPO"` yields `"repo"`), and raises `ValueError` (modelled as
`Except.error`) for every other string. -/
theorem validate_mode_normalizes (s : String) :
    (validate_mode s "mode" = Except.ok (String.mk (pyLower (pyStrip s.toList))) ↔
      (String.mk (pyLower (pyStrip s.toList)) = "test" ∨
        String.mk (pyLower (pyStrip s.toList)) = "repo")) ∧
    ((∃ e, validate_mode s "mode" = Except.error e) ↔
      ¬ (String.mk (pyLower (pyStrip s.toList)) = "test" ∨
        String.mk (pyLower (pyStrip s.toList)) = "repo")) ∧
    validate_mode " Test " "mode" = Except.ok "test" ∧
    validate_mode "REPO" "mode" = Except.ok "repo" := by
  refine ⟨?_, ?_, rfl, rfl⟩ <;> unfold validate_mode <;>
    by_cases h : (String.mk (pyLower (pyStrip s.toList)) = "test" ∨
      String.mk (pyLower (pyStrip s.toList)) = "repo")
  · rw [if_pos h]
    exact ⟨fun _ => h, fun _ => rfl⟩
  · rw [if_neg h]
    exact ⟨fun he => absurd he (by simp), fun hh => absurd hh h⟩
  · rw [if_pos h]
    exact ⟨fun ⟨e, he⟩ => absurd he (by simp), fun hh => absurd h hh⟩
  · rw [if_neg h]
    exact ⟨fun _ => h, fun _ => ⟨_, rfl⟩⟩

end Conf
